import Mathlib

/-!
Shallow embedding of the `dynbufio` package (dynamic buffered I/O layer):
the `BufferPool` size ladder, `DynamicBufWriter` (Write / Flush / grow /
shrink) and `DynamicBufReader` (Read / grow / shrink), together with models
of the Go standard library `bufio.Writer` and `bufio.Reader` machinery they
delegate to, and of the byte sinks / sources they are bound to.

Bytes are modelled as `Nat`, byte strings as `List Nat`.  Errors are an
inductive type; the sentinel errors of the stub endpoint
(`failingReadWriter`, whose Go messages are "write on failing writer" and
"read on failing writer") are the constructors `failingWrite` and
`failingRead`.  `sync.Pool` free lists are modelled as stacks; a real
`sync.Pool` may drop or miss entries, but every entry is scrubbed by
`Reset` before use, so the stack determinization is observationally
equivalent for a single-owner wrapper.
-/

namespace Dynbufio

/-- Error values crossing the modelled interfaces.  `failingWrite` and
`failingRead` are the stub endpoint sentinels ("write on failing writer" /
"read on failing writer"), `eof` is `io.EOF`, `deadlineExceeded` is
`os.ErrDeadlineExceeded`, `shortWrite` is `io.ErrShortWrite`, and `custom`
stands for any other sink or source error. -/
inductive Err where
  | failingWrite
  | failingRead
  | eof
  | deadlineExceeded
  | shortWrite
  | custom (k : Nat)
deriving DecidableEq, Repr

/-- Which endpoint a pooled buffer is currently bound to: the stub
 `failingReadWriter` or the real user-provided sink or source. -/
inductive Binding where
  | stub
  | real
deriving DecidableEq, Repr

/-- One scripted response of a byte sink.  `acceptAll` absorbs the whole
write without error; `accept n e` absorbs the first `n` bytes and returns
the error `e` (a Go `io.Writer` reports an error exactly when it accepts
fewer bytes than offered). -/
inductive SinkResp where
  | acceptAll
  | accept (n : Nat) (e : Err)
deriving DecidableEq, Repr

/-- A byte sink (`io.Writer`).  `data` is the byte string absorbed so far
(for the in-memory `bytes.Buffer` sink this is the whole observable state);
`resps` scripts the responses of the next write calls, and an exhausted
script behaves like `bytes.Buffer`: accept everything, no error. -/
structure Sink where
  resps : List SinkResp
  data : List Nat
deriving DecidableEq, Repr

/-- Model of a `Write(p)` call on the sink: returns the new sink state, the
byte count accepted and the error. -/
def Sink.write (s : Sink) (p : List Nat) : Sink × Nat × Option Err :=
  match s.resps with
  | [] => ({ s with data := s.data ++ p }, p.length, none)
  | SinkResp.acceptAll :: rest =>
      ({ resps := rest, data := s.data ++ p }, p.length, none)
  | SinkResp.accept n e :: rest =>
      ({ resps := rest, data := s.data ++ p.take n }, min n p.length, some e)

/-- The in-memory sink (`bytes.Buffer`): accepts everything, never errors. -/
def memSink : Sink := { resps := [], data := [] }

/-- Writing through the bound endpoint: the stub (`failingReadWriter.Write`)
accepts nothing and returns the sentinel; the real binding writes to the
user sink. -/
def epWrite (bd : Binding) (s : Sink) (p : List Nat) : Sink × Nat × Option Err :=
  match bd with
  | Binding.stub => (s, 0, some Err.failingWrite)
  | Binding.real => s.write p

/-- Model of `bufio.Writer`: `cap` is the backing array size (`Size()`),
`data` the currently buffered bytes (`b.buf[0:b.n]`), `err` the sticky
error, `bound` the endpoint the writer is reset to. -/
structure BWriter where
  cap : Nat
  data : List Nat
  err : Option Err
  bound : Binding
deriving DecidableEq, Repr

/-- Result of a flush on the inner buffered writer. -/
structure WFlushRes where
  b : BWriter
  s : Sink
  err : Option Err
deriving DecidableEq, Repr

/-- Model of `bufio.Writer.Flush`: sticky error first, empty buffer is a
no-op, otherwise one endpoint write; a short write with no error becomes
`io.ErrShortWrite`; on error the unaccepted bytes are shifted down
(`data.drop n`) and the error becomes sticky. -/
def BWriter.flush (b : BWriter) (s : Sink) : WFlushRes :=
  match b.err with
  | some e => { b := b, s := s, err := some e }
  | none =>
    if b.data.length = 0 then { b := b, s := s, err := none }
    else
      let t := epWrite b.bound s b.data
      let e0 := if t.2.1 < b.data.length ∧ t.2.2 = none then some Err.shortWrite else t.2.2
      match e0 with
      | some e2 =>
          { b := { b with data := b.data.drop t.2.1, err := some e2 }, s := t.1, err := some e2 }
      | none => { b := { b with data := [] }, s := t.1, err := none }

/-- Result of a write on the inner buffered writer. -/
structure WWriteRes where
  b : BWriter
  s : Sink
  n : Nat
  err : Option Err
deriving DecidableEq, Repr

theorem epWrite_none_all (bd : Binding) (s : Sink) (p : List Nat)
    (h : (epWrite bd s p).2.2 = none) : (epWrite bd s p).2.1 = p.length := by
  cases bd with
  | stub => simp [epWrite] at h
  | real =>
    unfold epWrite Sink.write
    unfold epWrite Sink.write at h
    cases hr : s.resps with
    | nil => simp [hr]
    | cons r rest =>
      cases r with
      | acceptAll => simp [hr]
      | accept n e => simp [hr] at h

/-- Data flag of the write-loop termination measure: 1 while bytes remain
buffered. -/
def dFlag (b : BWriter) : Nat := if b.data = [] then 0 else 1

/-- Sticky-error flag of the write-loop termination measure: 1 while no
error is sticky. -/
def eFlag (b : BWriter) : Nat := if b.err = none then 1 else 0

theorem dFlag_le (b : BWriter) : dFlag b ≤ 1 := by
  unfold dFlag; split <;> omega

theorem eFlag_le (b : BWriter) : eFlag b ≤ 1 := by
  unfold eFlag; split <;> omega

theorem flush_flags (b : BWriter) (s : Sink) :
    dFlag (BWriter.flush b s).b + eFlag (BWriter.flush b s).b ≤ 1 := by
  unfold BWriter.flush
  cases hbe : b.err with
  | some e => simp [dFlag, eFlag, hbe]; split <;> omega
  | none =>
    by_cases hd : b.data.length = 0
    · simp [hd, dFlag, eFlag, List.eq_nil_of_length_eq_zero hd, hbe]
    · simp [hd]
      cases he : (if (epWrite b.bound s b.data).2.1 < b.data.length ∧
          (epWrite b.bound s b.data).2.2 = none then some Err.shortWrite
          else (epWrite b.bound s b.data).2.2) with
      | some e2 => simp [dFlag, eFlag]; split <;> omega
      | none => simp [dFlag, eFlag]

/-- Termination measure for the `bufio.Writer.Write` loop. -/
def wMeasure (b : BWriter) (p : List Nat) : Nat :=
  2 * p.length + dFlag b + eFlag b

/-- Model of `bufio.Writer.Write`: while more bytes are offered than fit in
the free space and no error is sticky, either write directly through the
endpoint (empty buffer: the large-write bypass) or top up the buffer and
flush; the remaining bytes (which fit) are then buffered.  The recursion
mirrors one loop iteration per call. -/
def BWriter.write (b : BWriter) (s : Sink) (p : List Nat) : WWriteRes :=
  if hloop : b.cap - b.data.length < p.length ∧ b.err = none then
    if hemp : b.data.length = 0 then
      let t := epWrite b.bound s p
      let b1 : BWriter := { b with err := t.2.2 }
      let r := BWriter.write b1 t.1 (p.drop t.2.1)
      { b := r.b, s := r.s, n := t.2.1 + r.n, err := r.err }
    else
      let k := min (b.cap - b.data.length) p.length
      let bf : BWriter := { b with data := b.data ++ p.take k }
      let f := BWriter.flush bf s
      let r := BWriter.write f.b f.s (p.drop k)
      { b := r.b, s := r.s, n := k + r.n, err := r.err }
  else
    match b.err with
    | some e => { b := b, s := s, n := 0, err := some e }
    | none => { b := { b with data := b.data ++ p }, s := s, n := p.length, err := none }
termination_by wMeasure b p
decreasing_by
· unfold wMeasure
  have hp : 1 ≤ p.length := by omega
  have hd0 : dFlag b = 0 := by
    unfold dFlag
    cases hb : b.data with
    | nil => simp
    | cons x xs => rw [hb] at hemp; simp at hemp
  have he1 : eFlag b = 1 := by unfold eFlag; simp [hloop.2]
  have hdrop : (p.drop (epWrite b.bound s p).2.1).length
      = p.length - (epWrite b.bound s p).2.1 := by simp
  cases ht : (epWrite b.bound s p).2.2 with
  | none =>
    have hall := epWrite_none_all b.bound s p ht
    have hd1 : dFlag { b with err := none } = 0 := by
      unfold dFlag
      cases hb : b.data with
      | nil => simp
      | cons x xs => rw [hb] at hemp; simp at hemp
    have he2 : eFlag { b with err := none } = 1 := by unfold eFlag; simp
    omega
  | some e =>
    have hd1 : dFlag { b with err := some e } = 0 := by
      unfold dFlag
      cases hb : b.data with
      | nil => simp
      | cons x xs => rw [hb] at hemp; simp at hemp
    have he2 : eFlag { b with err := some e } = 0 := by
      unfold eFlag; simp
    omega
· unfold wMeasure
  have hp : 1 ≤ p.length := by omega
  have hd1 : dFlag b = 1 := by
    unfold dFlag
    cases hb : b.data with
    | nil => rw [hb] at hemp; simp at hemp
    | cons x xs => simp
  have he1 : eFlag b = 1 := by unfold eFlag; simp [hloop.2]
  have hsum := flush_flags
    { b with data := b.data ++ List.take (min (b.cap - b.data.length) p.length) p } s
  have hdrop : (p.drop (min (b.cap - b.data.length) p.length)).length
      = p.length - min (b.cap - b.data.length) p.length := by simp
  omega

/-- Ghost observation events on a source: deadline mutations and
underlying read calls, in program order. -/
inductive TraceEv where
  | setDl (v : Option Nat)
  | srcRead
deriving DecidableEq, Repr

/-- One scripted response of a byte source: a chunk of delivered bytes
(truncated to the destination capacity) or an error. -/
inductive RdEvent where
  | chunk (data : List Nat)
  | rerr (e : Err)
deriving DecidableEq, Repr

/-- A byte source (`io.Reader`), optionally a `net.Conn`.  `deadline` is
the currently installed read deadline (`some 10` stands for now + 10 s,
`none` for the zero `time.Time{}`, i.e. no deadline); `events` scripts the
next underlying reads; an exhausted script returns end of stream
(`0, io.EOF`).  `trace` is a ghost log of deadline mutations and read
calls and carries no behaviour. -/
structure Source where
  isConn : Bool
  deadline : Option Nat
  events : List RdEvent
  trace : List TraceEv
deriving DecidableEq, Repr

/-- Model of a `Read` call on the source into a destination of capacity
`k`: consumes the next scripted event. -/
def Source.read (s : Source) (k : Nat) : Source × List Nat × Option Err :=
  match s.events with
  | [] => ({ s with trace := s.trace ++ [TraceEv.srcRead] }, [], some Err.eof)
  | RdEvent.chunk d :: rest =>
      ({ s with events := rest, trace := s.trace ++ [TraceEv.srcRead] }, d.take k, none)
  | RdEvent.rerr e :: rest =>
      ({ s with events := rest, trace := s.trace ++ [TraceEv.srcRead] }, [], some e)

/-- Reading through the bound endpoint: the stub (`failingReadWriter.Read`)
returns the sentinel without touching the source; the real binding reads
from the user source. -/
def epRead (bd : Binding) (s : Source) (k : Nat) : Source × List Nat × Option Err :=
  match bd with
  | Binding.stub => (s, [], some Err.failingRead)
  | Binding.real => s.read k

/-- Model of `bufio.Reader`: `cap` is the backing array size (`Size()`),
`data` the currently buffered bytes (`b.buf[b.r:b.w]`), `err` the pending
error, `bound` the endpoint the reader is reset to. -/
structure BReader where
  cap : Nat
  data : List Nat
  err : Option Err
  bound : Binding
deriving DecidableEq, Repr

/-- Result of a read on the inner buffered reader: `data` is what landed in
the destination slice (`n = data.length`). -/
structure RdRes where
  b : BReader
  s : Source
  data : List Nat
  err : Option Err
deriving DecidableEq, Repr

/-- Model of `bufio.Reader.Read` into a destination of length `plen`.
Mirrors the Go code: the zero-length special case, the pending-error
return (which clears the error), the large-read bypass
(`plen ≥ cap` reads directly into the destination), the single fill
(whose error is stored and only surfaced once the fill delivered nothing),
and the copy out of the internal buffer. -/
def BReader.read (b : BReader) (s : Source) (plen : Nat) : RdRes :=
  if plen = 0 then
    if 0 < b.data.length then { b := b, s := s, data := [], err := none }
    else { b := { b with err := none }, s := s, data := [], err := b.err }
  else if b.data.length = 0 then
    match b.err with
    | some e => { b := { b with err := none }, s := s, data := [], err := some e }
    | none =>
      if b.cap ≤ plen then
        let t := epRead b.bound s plen
        { b := b, s := t.1, data := t.2.1, err := t.2.2 }
      else
        let t := epRead b.bound s b.cap
        if t.2.1.length = 0 then { b := b, s := t.1, data := [], err := t.2.2 }
        else
          let n := min plen t.2.1.length
          { b := { b with data := t.2.1.drop n, err := t.2.2 }, s := t.1,
            data := t.2.1.take n, err := none }
  else
    let n := min plen b.data.length
    { b := { b with data := b.data.drop n }, s := s, data := b.data.take n, err := none }

/-- Default minimum write buffer size of the pool (the `dynbufio` constant
`minWriteBufferSize`). -/
def minWriteBufferSize : Nat := 1024

/-- The size ladder loop of `NewPool`: starting from the normalized
minimum, keep doubling while strictly below `maxSize`, collecting each
size.  `NewPool` always calls this with `0 < cur` (after normalization);
the `0 < cur` guard only serves termination (the Go loop would not
terminate on `cur = 0` either). -/
def buildSizes (cur : Nat) (maxSize : Int) : List Nat :=
  if h : 0 < cur ∧ (cur : Int) < maxSize then cur :: buildSizes (cur * 2) maxSize
  else [cur]
termination_by maxSize.toNat - cur
decreasing_by
  have h1 : (cur : Int) < maxSize := h.2
  have h2 : 0 < cur := h.1
  have h3 : cur < maxSize.toNat := by omega
  omega

/-- Model of `BufferPool`: the size ladder together with one free list of
buffered writers and one of buffered readers per slot (each `sync.Pool`
modelled as a stack). -/
structure BufferPool where
  sizes : List Nat
  writerFree : List (List BWriter)
  readerFree : List (List BReader)
  maxIdx : Nat
deriving DecidableEq, Repr

/-- The normalization at the top of `NewPool`: a non-positive `minSize`
falls back to `minWriteBufferSize`. -/
def normMin (minSize : Int) : Nat :=
  if minSize ≤ 0 then minWriteBufferSize else minSize.toNat

/-- Model of `NewPool`: non-positive `minSize` is normalized to
`minWriteBufferSize`; the ladder doubles until reaching `maxSize`; all
free lists start empty. -/
def NewPool (minSize maxSize : Int) : BufferPool :=
  let sizes := buildSizes (normMin minSize) maxSize
  { sizes := sizes
  , writerFree := List.replicate sizes.length []
  , readerFree := List.replicate sizes.length []
  , maxIdx := sizes.length - 1 }

/-- Model of `writerPools[i].Get()`: pop the free list, or allocate a fresh
stub-bound buffered writer of the slot size (`bufio.NewWriterSize` over
`failingReadWriter`). -/
def BufferPool.getW (p : BufferPool) (i : Nat) : BufferPool × BWriter :=
  match p.writerFree.getD i [] with
  | [] => (p, { cap := p.sizes.getD i 0, data := [], err := none, bound := Binding.stub })
  | b :: rest => ({ p with writerFree := p.writerFree.set i rest }, b)

/-- Model of `writerPools[i].Put(b)`. -/
def BufferPool.putW (p : BufferPool) (i : Nat) (b : BWriter) : BufferPool :=
  { p with writerFree := p.writerFree.set i (b :: p.writerFree.getD i []) }

/-- Model of `readerPools[i].Get()`. -/
def BufferPool.getR (p : BufferPool) (i : Nat) : BufferPool × BReader :=
  match p.readerFree.getD i [] with
  | [] => (p, { cap := p.sizes.getD i 0, data := [], err := none, bound := Binding.stub })
  | b :: rest => ({ p with readerFree := p.readerFree.set i rest }, b)

/-- Model of `readerPools[i].Put(b)`. -/
def BufferPool.putR (p : BufferPool) (i : Nat) (b : BReader) : BufferPool :=
  { p with readerFree := p.readerFree.set i (b :: p.readerFree.getD i []) }

/-- Model of `DynamicBufWriter`: the checked-out inner buffered writer, the
pool, and the current ladder slot.  The user sink (`dbw.w`) is threaded
through the operations; `migrations` is a ghost counter of actual buffer
swaps (each `grow`/`shrink` that really exchanged the inner buffer) and
carries no behaviour. -/
structure DynamicBufWriter where
  buf : BWriter
  pool : BufferPool
  poolIdx : Nat
  migrations : Nat
deriving DecidableEq, Repr

/-- Model of `BufferPool.NewWriteBuffer`: check a writer out of slot 0 and
rebind it to the user sink (`bw.Reset(w)`, which also clears cursor and
sticky error). -/
def BufferPool.NewWriteBuffer (p : BufferPool) : DynamicBufWriter :=
  let g := p.getW 0
  { buf := { g.2 with bound := Binding.real, data := [], err := none }
  , pool := g.1, poolIdx := 0, migrations := 0 }

/-- Model of `DynamicBufWriter.Buffered`. -/
def DynamicBufWriter.Buffered (d : DynamicBufWriter) : Nat := d.buf.data.length

/-- Model of `DynamicBufWriter.Size`. -/
def DynamicBufWriter.Size (d : DynamicBufWriter) : Nat := d.buf.cap

/-- Model of `DynamicBufWriter.grow`: below the top slot, rebind the inner
to the stub (`Reset(failingReadWriter)` clears its cursor and sticky
error), return it to the current slot, move one slot up, check a writer
out and rebind it to the sink. -/
def DynamicBufWriter.grow (d : DynamicBufWriter) : DynamicBufWriter :=
  if d.poolIdx < d.pool.maxIdx then
    let returned : BWriter := { d.buf with bound := Binding.stub, data := [], err := none }
    let p1 := d.pool.putW d.poolIdx returned
    let i2 := d.poolIdx + 1
    let g := p1.getW i2
    { buf := { g.2 with bound := Binding.real, data := [], err := none }
    , pool := g.1, poolIdx := i2, migrations := d.migrations + 1 }
  else d

/-- Model of `DynamicBufWriter.shrink`: symmetric to `grow`, one slot
down, no-op at slot 0. -/
def DynamicBufWriter.shrink (d : DynamicBufWriter) : DynamicBufWriter :=
  if d.poolIdx ≠ 0 then
    let returned : BWriter := { d.buf with bound := Binding.stub, data := [], err := none }
    let p1 := d.pool.putW d.poolIdx returned
    let i2 := d.poolIdx - 1
    let g := p1.getW i2
    { buf := { g.2 with bound := Binding.real, data := [], err := none }
    , pool := g.1, poolIdx := i2, migrations := d.migrations + 1 }
  else d

/-- Result of a `DynamicBufWriter.Write` call. -/
structure DWrRes where
  d : DynamicBufWriter
  s : Sink
  n : Nat
  err : Option Err
deriving DecidableEq, Repr

/-- Model of `DynamicBufWriter.Write`: record whether the offered bytes
exceed the free space, write through the inner buffered writer, then grow
if they did (regardless of the write error). -/
def DynamicBufWriter.Write (d : DynamicBufWriter) (s : Sink) (p : List Nat) : DWrRes :=
  let shouldGrow := d.buf.cap - d.buf.data.length < p.length
  let r := BWriter.write d.buf s p
  let d1 : DynamicBufWriter := { d with buf := r.b }
  let d2 := if shouldGrow then d1.grow else d1
  { d := d2, s := r.s, n := r.n, err := r.err }

/-- Result of a `DynamicBufWriter.Flush` call. -/
structure DFlRes where
  d : DynamicBufWriter
  s : Sink
  err : Option Err
deriving DecidableEq, Repr

/-- Model of `DynamicBufWriter.Flush`: record the pre-flush utilization
decision (grow if saturated and below the top slot, else shrink if under
half full), flush the inner writer, return its error with no migration on
failure, otherwise apply the recorded migration. -/
def DynamicBufWriter.Flush (d : DynamicBufWriter) (s : Sink) : DFlRes :=
  let buffered := d.buf.data.length
  let size := d.buf.cap
  let shouldGrow := buffered = size ∧ d.poolIdx < d.pool.maxIdx
  let shouldShrink := ¬(buffered = size ∧ d.poolIdx < d.pool.maxIdx) ∧ buffered < size / 2
  let f := BWriter.flush d.buf s
  match f.err with
  | some e => { d := { d with buf := f.b }, s := f.s, err := some e }
  | none =>
    let d1 : DynamicBufWriter := { d with buf := f.b }
    let d2 := if shouldGrow then d1.grow else if shouldShrink then d1.shrink else d1
    { d := d2, s := f.s, err := none }

/-- Model of `DynamicBufReader`: the checked-out inner buffered reader,
the pool and the current ladder slot; the user source (`dbr.r`) is
threaded through `Read`; `migrations` is a ghost swap counter. -/
structure DynamicBufReader where
  buf : BReader
  pool : BufferPool
  poolIdx : Nat
  migrations : Nat
deriving DecidableEq, Repr

/-- Model of `BufferPool.NewReaderBuffer`: check a reader out of slot 0
and rebind it to the user source (`bw.Reset(r)`). -/
def BufferPool.NewReaderBuffer (p : BufferPool) : DynamicBufReader :=
  let g := p.getR 0
  { buf := { g.2 with bound := Binding.real, data := [], err := none }
  , pool := g.1, poolIdx := 0, migrations := 0 }

/-- Model of `DynamicBufReader.grow`. -/
def DynamicBufReader.grow (d : DynamicBufReader) : DynamicBufReader :=
  if d.poolIdx < d.pool.maxIdx then
    let returned : BReader := { d.buf with bound := Binding.stub, data := [], err := none }
    let p1 := d.pool.putR d.poolIdx returned
    let i2 := d.poolIdx + 1
    let g := p1.getR i2
    { buf := { g.2 with bound := Binding.real, data := [], err := none }
    , pool := g.1, poolIdx := i2, migrations := d.migrations + 1 }
  else d

/-- Model of `DynamicBufReader.shrink`. -/
def DynamicBufReader.shrink (d : DynamicBufReader) : DynamicBufReader :=
  if d.poolIdx ≠ 0 then
    let returned : BReader := { d.buf with bound := Binding.stub, data := [], err := none }
    let p1 := d.pool.putR d.poolIdx returned
    let i2 := d.poolIdx - 1
    let g := p1.getR i2
    { buf := { g.2 with bound := Binding.real, data := [], err := none }
    , pool := g.1, poolIdx := i2, migrations := d.migrations + 1 }
  else d

/-- Result of a `DynamicBufReader.Read` call. -/
structure DRdRes where
  d : DynamicBufReader
  s : Source
  data : List Nat
  err : Option Err
deriving DecidableEq, Repr

/-- The deadline block at the top of `DynamicBufReader.Read`: on a
connection source, install the 10 second idle deadline above slot 0 and
clear any deadline at slot 0 (logged in the ghost trace); other sources
are untouched. -/
def setDeadline (i : Nat) (s : Source) : Source :=
  if s.isConn then
    if i ≠ 0 then { s with deadline := some 10, trace := s.trace ++ [TraceEv.setDl (some 10)] }
    else { s with deadline := none, trace := s.trace ++ [TraceEv.setDl none] }
  else s

theorem setDeadline_events (i : Nat) (s : Source) :
    (setDeadline i s).events = s.events := by
  unfold setDeadline
  split
  · split <;> rfl
  · rfl

theorem shrink_err_none (d : DynamicBufReader) (h : d.buf.err = none) :
    (DynamicBufReader.shrink d).buf.err = none := by
  unfold DynamicBufReader.shrink
  split
  · rfl
  · exact h

theorem read_deadline_shape (b : BReader) (s : Source) (plen : Nat)
    (h : (BReader.read b s plen).err = some Err.deadlineExceeded) :
    (BReader.read b s plen).b.err = none ∧
      2 * (BReader.read b s plen).s.events.length
        < 2 * s.events.length + (if b.err = none then 0 else 1) := by
  rcases b with ⟨cap, data, err, bound⟩
  by_cases hp : plen = 0
  · subst hp
    cases data with
    | cons x xs => simp [BReader.read] at h
    | nil =>
      cases err with
      | none => simp [BReader.read] at h
      | some e => simp [BReader.read] at h ⊢
  · cases data with
    | cons x xs => simp [BReader.read, hp] at h
    | nil =>
      cases err with
      | some e => simp [BReader.read, hp] at h ⊢
      | none =>
        by_cases hc : cap ≤ plen
        · cases bound with
          | stub => simp [BReader.read, hp, hc, epRead] at h
          | real =>
            cases hev : s.events with
            | nil => simp [BReader.read, hp, hc, epRead, Source.read, hev] at h
            | cons ev rest =>
              cases ev with
              | chunk dd => simp [BReader.read, hp, hc, epRead, Source.read, hev] at h
              | rerr e => simp [BReader.read, hp, hc, epRead, Source.read, hev] at h ⊢
        · cases bound with
          | stub => simp [BReader.read, hp, hc, epRead] at h
          | real =>
            cases hev : s.events with
            | nil => simp [BReader.read, hp, hc, epRead, Source.read, hev] at h
            | cons ev rest =>
              cases ev with
              | chunk dd =>
                by_cases hz : cap = 0 ∨ dd = []
                · simp [BReader.read, hp, hc, epRead, Source.read, hev, hz] at h
                · simp [BReader.read, hp, hc, epRead, Source.read, hev, hz] at h
              | rerr e => simp [BReader.read, hp, hc, epRead, Source.read, hev] at h ⊢

/-- Termination measure for the deadline retry recursion of
`DynamicBufReader.Read`: every retried fill either consumed a scripted
source event or surfaced (and thereby cleared) a pending inner error. -/
def rMeasure (d : DynamicBufReader) (s : Source) : Nat :=
  2 * s.events.length + (if d.buf.err = none then 0 else 1)

/-- Model of `DynamicBufReader.Read`: run the deadline block, serve from
memory when bytes are buffered (no migration), otherwise fill through the
inner reader; a deadline-expired fill shrinks one slot and retries
recursively; any other outcome applies the sizing rule on
`total = n + Buffered()` against the capacity. -/
def DynamicBufReader.Read (d : DynamicBufReader) (s : Source) (plen : Nat) : DRdRes :=
  let s0 := setDeadline d.poolIdx s
  if d.buf.data.length ≠ 0 then
    let r := BReader.read d.buf s0 plen
    { d := { d with buf := r.b }, s := r.s, data := r.data, err := r.err }
  else
    let r := BReader.read d.buf s0 plen
    if hdl : r.err = some Err.deadlineExceeded then
      DynamicBufReader.Read (DynamicBufReader.shrink { d with buf := r.b }) r.s plen
    else
      let total := r.data.length + r.b.data.length
      let d1 : DynamicBufReader := { d with buf := r.b }
      let d2 := if r.b.cap ≤ total then d1.grow
                else if total < r.b.cap / 2 then d1.shrink
                else d1
      { d := d2, s := r.s, data := r.data, err := r.err }
termination_by rMeasure d s
decreasing_by
  unfold rMeasure
  have hsh := read_deadline_shape d.buf (setDeadline d.poolIdx s) plen hdl
  have he : (DynamicBufReader.shrink
      { d with buf := (BReader.read d.buf (setDeadline d.poolIdx s) plen).b }).buf.err
      = none := shrink_err_none _ hsh.1
  rw [setDeadline_events] at hsh
  simp [he]
  omega

/-- Modelled from the spec (section 4.2): the post-flush migration
decision stated in the spec words — grow one slot if the pre-flush
buffered count equals capacity and the slot is below the top, else shrink
one slot if under half capacity (no-op at slot 0, via truncated
subtraction), else keep the slot. -/
def flushIdxSpec (buffered size idx m : Nat) : Nat :=
  if buffered = size ∧ idx < m then idx + 1
  else if buffered < size / 2 then idx - 1
  else idx

/-- Modelled from the spec (section 4.3): the post-fill sizing decision
stated in the spec words — migrate up one slot when `total ≥ capacity`
(no-op at the top slot), down one slot when `total < capacity / 2` (no-op
at slot 0), else unchanged. -/
def readIdxSpec (total cap idx m : Nat) : Nat :=
  if cap ≤ total then (if idx < m then idx + 1 else idx)
  else if total < cap / 2 then idx - 1
  else idx

/-- The next underlying read on `s` returns zero bytes and the error `e`:
either the next scripted event is the error `e`, or the script is
exhausted and `e` is end of stream. -/
def srcErrNext (s : Source) (e : Err) : Prop :=
  s.events.head? = some (RdEvent.rerr e) ∨ (s.events = [] ∧ e = Err.eof)

/-- A buffered writer in the state required of pool free-list entries:
stub-bound, cursor reset, no sticky error. -/
def WReset (b : BWriter) : Prop :=
  b.bound = Binding.stub ∧ b.data = [] ∧ b.err = none

/-- A buffered reader in the state required of pool free-list entries. -/
def RReset (b : BReader) : Prop :=
  b.bound = Binding.stub ∧ b.data = [] ∧ b.err = none

/-- Every free-list entry of the pool is stub-bound with a reset cursor. -/
def PoolOK (p : BufferPool) : Prop :=
  (∀ l ∈ p.writerFree, ∀ b ∈ l, WReset b) ∧
  (∀ l ∈ p.readerFree, ∀ b ∈ l, RReset b)

theorem getD_sublist {α : Type} (xs : List (List α)) (i : Nat) (a : α)
    (h : a ∈ xs.getD i []) : ∃ l ∈ xs, a ∈ l := by
  by_cases hi : i < xs.length
  · refine ⟨xs.getD i [], ?_, h⟩
    rw [List.getD_eq_getElem xs [] hi]
    exact xs.getElem_mem hi
  · rw [List.getD_eq_default xs [] (by omega)] at h
    simp at h

theorem mem_set_cases {α : Type} (xs : List α) (i : Nat) (y a : α)
    (h : a ∈ xs.set i y) : a = y ∨ a ∈ xs := by
  rcases List.mem_or_eq_of_mem_set h with h1 | h1
  · exact Or.inr h1
  · exact Or.inl h1

theorem putW_ok (p : BufferPool) (i : Nat) (b : BWriter)
    (hp : PoolOK p) (hb : WReset b) : PoolOK (p.putW i b) := by
  constructor
  · intro l hl c hc
    rcases mem_set_cases _ _ _ _ hl with h1 | h1
    · subst h1
      rcases List.mem_cons.mp hc with hc | hc
      · subst hc; exact hb
      · rcases getD_sublist _ _ _ hc with ⟨l2, hl2, hcl2⟩
        exact hp.1 l2 hl2 c hcl2
    · exact hp.1 l h1 c hc
  · exact hp.2

theorem putR_ok (p : BufferPool) (i : Nat) (b : BReader)
    (hp : PoolOK p) (hb : RReset b) : PoolOK (p.putR i b) := by
  constructor
  · exact hp.1
  · intro l hl c hc
    rcases mem_set_cases _ _ _ _ hl with h1 | h1
    · subst h1
      rcases List.mem_cons.mp hc with hc | hc
      · subst hc; exact hb
      · rcases getD_sublist _ _ _ hc with ⟨l2, hl2, hcl2⟩
        exact hp.2 l2 hl2 c hcl2
    · exact hp.2 l h1 c hc

theorem getW_ok (p : BufferPool) (i : Nat) (hp : PoolOK p) :
    PoolOK (p.getW i).1 := by
  unfold BufferPool.getW
  cases hg : p.writerFree.getD i [] with
  | nil => exact hp
  | cons b rest =>
    constructor
    · intro l hl c hc
      rcases mem_set_cases _ _ _ _ hl with h1 | h1
      · subst h1
        have : c ∈ p.writerFree.getD i [] := by rw [hg]; exact List.mem_cons_of_mem _ hc
        rcases getD_sublist _ _ _ this with ⟨l2, hl2, hcl2⟩
        exact hp.1 l2 hl2 c hcl2
      · exact hp.1 l h1 c hc
    · exact hp.2

theorem getR_ok (p : BufferPool) (i : Nat) (hp : PoolOK p) :
    PoolOK (p.getR i).1 := by
  unfold BufferPool.getR
  cases hg : p.readerFree.getD i [] with
  | nil => exact hp
  | cons b rest =>
    constructor
    · exact hp.1
    · intro l hl c hc
      rcases mem_set_cases _ _ _ _ hl with h1 | h1
      · subst h1
        have : c ∈ p.readerFree.getD i [] := by rw [hg]; exact List.mem_cons_of_mem _ hc
        rcases getD_sublist _ _ _ this with ⟨l2, hl2, hcl2⟩
        exact hp.2 l2 hl2 c hcl2
      · exact hp.2 l h1 c hc

theorem wgrow_pool_ok (d : DynamicBufWriter) (hp : PoolOK d.pool) :
    PoolOK (DynamicBufWriter.grow d).pool := by
  unfold DynamicBufWriter.grow
  split
  · exact getW_ok _ _ (putW_ok _ _ _ hp ⟨rfl, rfl, rfl⟩)
  · exact hp

theorem wshrink_pool_ok (d : DynamicBufWriter) (hp : PoolOK d.pool) :
    PoolOK (DynamicBufWriter.shrink d).pool := by
  unfold DynamicBufWriter.shrink
  split
  · exact getW_ok _ _ (putW_ok _ _ _ hp ⟨rfl, rfl, rfl⟩)
  · exact hp

theorem rgrow_pool_ok (d : DynamicBufReader) (hp : PoolOK d.pool) :
    PoolOK (DynamicBufReader.grow d).pool := by
  unfold DynamicBufReader.grow
  split
  · exact getR_ok _ _ (putR_ok _ _ _ hp ⟨rfl, rfl, rfl⟩)
  · exact hp

theorem rshrink_pool_ok (d : DynamicBufReader) (hp : PoolOK d.pool) :
    PoolOK (DynamicBufReader.shrink d).pool := by
  unfold DynamicBufReader.shrink
  split
  · exact getR_ok _ _ (putR_ok _ _ _ hp ⟨rfl, rfl, rfl⟩)
  · exact hp

theorem rgrow_poolIdx (d : DynamicBufReader) :
    (DynamicBufReader.grow d).poolIdx
      = if d.poolIdx < d.pool.maxIdx then d.poolIdx + 1 else d.poolIdx := by
  unfold DynamicBufReader.grow
  split <;> simp_all

theorem rshrink_poolIdx (d : DynamicBufReader) :
    (DynamicBufReader.shrink d).poolIdx = d.poolIdx - 1 := by
  unfold DynamicBufReader.shrink
  split
  · simp
  · simp_all

theorem wgrow_poolIdx (d : DynamicBufWriter) :
    (DynamicBufWriter.grow d).poolIdx
      = if d.poolIdx < d.pool.maxIdx then d.poolIdx + 1 else d.poolIdx := by
  unfold DynamicBufWriter.grow
  split <;> simp_all

theorem wshrink_poolIdx (d : DynamicBufWriter) :
    (DynamicBufWriter.shrink d).poolIdx = d.poolIdx - 1 := by
  unfold DynamicBufWriter.shrink
  split
  · simp
  · simp_all

/-- On the fast path the inner buffered reader serves from memory: the
source is untouched and no error is returned. -/
theorem fast_read_shape (b : BReader) (s : Source) (plen : Nat)
    (h : b.data.length ≠ 0) :
    (BReader.read b s plen).s = s ∧ (BReader.read b s plen).err = none ∧
      (BReader.read b s plen).b.cap = b.cap ∧
      (BReader.read b s plen).data = b.data.take (min plen b.data.length) := by
  have h0 : 0 < b.data.length := by omega
  unfold BReader.read
  by_cases hp : plen = 0
  · simp [hp, h0]
  · simp [hp, h, h0]

/-- A read on the inner buffered reader preserves the backing capacity. -/
theorem read_cap_eq (b : BReader) (s : Source) (plen : Nat) :
    (BReader.read b s plen).b.cap = b.cap := by
  unfold BReader.read
  rcases b with ⟨cap, data, err, bound⟩
  by_cases hp : plen = 0
  · simp [hp]
    split <;> rfl
  · simp [hp]
    by_cases hd : data.length = 0
    · have hd0 : data = [] := List.eq_nil_of_length_eq_zero hd
      subst hd0
      simp
      cases err with
      | some e => rfl
      | none =>
        by_cases hcp : cap ≤ plen
        · simp [hcp]
        · simp [hcp]
          split <;> rfl
    · have hne : data ≠ [] := by
        intro hx
        rw [hx] at hd
        simp at hd
      simp [hne]

theorem wgrow_migrations (d : DynamicBufWriter) :
    (DynamicBufWriter.grow d).migrations
      = if d.poolIdx < d.pool.maxIdx then d.migrations + 1 else d.migrations := by
  unfold DynamicBufWriter.grow
  split <;> simp_all

/-- First call of the C1 failing input: Write [1,2,3,4] on a fresh writer
over NewPool 4 8 and an in-memory sink. -/
def c1r1 : DWrRes := (NewPool 4 8).NewWriteBuffer.Write memSink [1,2,3,4]

/-- Second call of the C1 failing input: Write [5,6,7,8]. -/
def c1r2 : DWrRes := c1r1.d.Write c1r1.s [5,6,7,8]

/-- Third call of the C1 failing input: Flush. -/
def c1r3 : DFlRes := c1r2.d.Flush c1r2.s

/-- C1: evaluation of the code at the failing input.  Over a pool built with minSize 4 and maxSize 8, writing the eight bytes 1..8 as two four-byte writes and flushing reports full success (n = 4 twice, no error anywhere), yet the in-memory sink ends with only the first four bytes: the write-path migration (grow) resets the inner buffered writer, discarding the four bytes it had just absorbed.  This refutes the round-trip property as stated; the spec (and the evident intent of TestWriter) is the authority, so this is a code bug. -/
theorem roundTrip_write_path_loss :
    c1r1.n = 4 ∧ c1r1.err = none ∧ c1r2.n = 4 ∧ c1r2.err = none ∧
      c1r3.err = none ∧ c1r3.s.data = [1,2,3,4] := by
  simp [c1r3, c1r2, c1r1,
    DynamicBufWriter.Write, DynamicBufWriter.Flush, BWriter.write, BWriter.flush,
    epWrite, Sink.write, NewPool, buildSizes, normMin, BufferPool.NewWriteBuffer, BufferPool.getW,
    BufferPool.putW, DynamicBufWriter.grow, DynamicBufWriter.shrink, memSink, minWriteBufferSize]

/-- C2: counterexample.  From a fresh writer over a pool with minSize 4 and maxSize 32, the literal sequence W(4), W(4), W(4), W(5), Flush does not end with Size() = 32 and the 17 input bytes on the sink. -/
theorem growToCeiling_scenario_cex :
    let r1 := (NewPool 4 32).NewWriteBuffer.Write memSink [1,2,3,4]
    let r2 := r1.d.Write r1.s [5,6,7,8]
    let r3 := r2.d.Write r2.s [9,10,11,12]
    let r4 := r3.d.Write r3.s [13,14,15,16,17]
    let r5 := r4.d.Flush r4.s
    ¬ (r5.d.Size = 32 ∧ r5.s.data = [1,2,3,4,5,6,7,8,9,10,11,12,13,14,15,16,17]) := by
  simp [DynamicBufWriter.Write, DynamicBufWriter.Flush, DynamicBufWriter.Size,
    BWriter.write, BWriter.flush,
    epWrite, Sink.write, NewPool, buildSizes, normMin, BufferPool.NewWriteBuffer, BufferPool.getW,
    BufferPool.putW, DynamicBufWriter.grow, DynamicBufWriter.shrink, memSink, minWriteBufferSize]

/-- The C2 scenario run, writes one to four: W(4), W(4), W(4), W(5) from a
fresh writer over NewPool 4 32 and an in-memory sink. -/
def c2r1 : DWrRes := (NewPool 4 32).NewWriteBuffer.Write memSink [1,2,3,4]

/-- Second write of the C2 scenario. -/
def c2r2 : DWrRes := c2r1.d.Write c2r1.s [5,6,7,8]

/-- Third write of the C2 scenario. -/
def c2r3 : DWrRes := c2r2.d.Write c2r2.s [9,10,11,12]

/-- Fourth write of the C2 scenario. -/
def c2r4 : DWrRes := c2r3.d.Write c2r3.s [13,14,15,16,17]

/-- Final flush of the C2 scenario. -/
def c2r5 : DFlRes := c2r4.d.Flush c2r4.s

/-- C2 amended: what the code actually does on that sequence.  The writer ends at Size() = 8 (grow fires on the second and fourth writes, reaching slot 16, then the empty flush shrinks to 8), and the sink holds 12 of the 17 bytes: bytes 5..8 and byte 17 are discarded by the write-path migrations. -/
theorem growToCeiling_scenario_actual :
    c2r5.d.Size = 8 ∧ c2r5.err = none ∧
      c2r5.s.data = [1,2,3,4,9,10,11,12,13,14,15,16] := by
  simp [c2r5, c2r4, c2r3, c2r2, c2r1,
    DynamicBufWriter.Write, DynamicBufWriter.Flush, DynamicBufWriter.Size,
    BWriter.write, BWriter.flush,
    epWrite, Sink.write, NewPool, buildSizes, normMin, BufferPool.NewWriteBuffer, BufferPool.getW,
    BufferPool.putW, DynamicBufWriter.grow, DynamicBufWriter.shrink, memSink, minWriteBufferSize]

/-- C5: Flush migrates exactly per the spec decision table computed on the pre-flush buffered count and capacity (grow one slot when saturated below the top slot, else shrink one slot when under half full with a no-op at slot 0, else unchanged), returns the inner flush error verbatim, and on error performs no migration: the slot, the ghost migration counter and the checked-out inner buffer are all unchanged beyond the inner flush attempt itself. -/
theorem flush_migration_policy (d : DynamicBufWriter) (s : Sink) :
    ((DynamicBufWriter.Flush d s).err = (BWriter.flush d.buf s).err) ∧
    ((DynamicBufWriter.Flush d s).err = none →
      (DynamicBufWriter.Flush d s).d.poolIdx
        = flushIdxSpec d.buf.data.length d.buf.cap d.poolIdx d.pool.maxIdx) ∧
    (∀ e, (DynamicBufWriter.Flush d s).err = some e →
      (DynamicBufWriter.Flush d s).d.poolIdx = d.poolIdx ∧
      (DynamicBufWriter.Flush d s).d.migrations = d.migrations ∧
      (DynamicBufWriter.Flush d s).d.buf = (BWriter.flush d.buf s).b) := by
  unfold DynamicBufWriter.Flush
  cases hf : (BWriter.flush d.buf s).err with
  | some e => simp [hf]
  | none =>
    simp [hf]
    unfold flushIdxSpec
    by_cases hg : d.buf.data.length = d.buf.cap ∧ d.poolIdx < d.pool.maxIdx
    · simp [hg, wgrow_poolIdx, hg.2]
    · simp [hg]
      by_cases hs : d.buf.data.length < d.buf.cap / 2
      · have hg2 : d.buf.data.length = d.buf.cap → d.pool.maxIdx ≤ d.poolIdx := by
          intro hx
          by_contra hy
          exact hg ⟨hx, by omega⟩
        rw [if_pos (And.intro hg2 hs)]
        simp [hs, wshrink_poolIdx]
      · simp [hs]

/-- C9: when the offered bytes exceed the available space and the writer sits below the top slot, Write migrates up exactly one slot even when the inner write reports an error, and returns that inner error verbatim (in contrast to Flush, which never migrates on error). -/
theorem write_grows_even_on_error (d : DynamicBufWriter) (s : Sink) (p : List Nat)
    (h1 : d.buf.cap - d.buf.data.length < p.length)
    (h2 : d.poolIdx < d.pool.maxIdx)
    (h3 : (DynamicBufWriter.Write d s p).err ≠ none) :
    (DynamicBufWriter.Write d s p).d.poolIdx = d.poolIdx + 1 ∧
    (DynamicBufWriter.Write d s p).d.migrations = d.migrations + 1 ∧
    (DynamicBufWriter.Write d s p).err = (BWriter.write d.buf s p).err := by
  unfold DynamicBufWriter.Write
  simp [h1, wgrow_poolIdx, wgrow_migrations, h2]

def dC9 : DynamicBufWriter :=
  { buf := { cap := 4, data := [9,9,9], err := none, bound := Binding.real }
  , pool := { sizes := [4,8], writerFree := [[],[]], readerFree := [[],[]], maxIdx := 1 }
  , poolIdx := 0, migrations := 0 }

def sC9 : Sink := { resps := [SinkResp.accept 0 (Err.custom 0)], data := [] }

theorem write_grows_even_on_error_witness :
    (dC9.buf.cap - dC9.buf.data.length < ([1,2] : List Nat).length) ∧
    (dC9.poolIdx < dC9.pool.maxIdx) ∧
    ((DynamicBufWriter.Write dC9 sC9 [1,2]).err ≠ none) ∧
    (DynamicBufWriter.Write dC9 sC9 [1,2]).d.poolIdx = dC9.poolIdx + 1 ∧
    (DynamicBufWriter.Write dC9 sC9 [1,2]).d.migrations = dC9.migrations + 1 := by
  have h1 : dC9.buf.cap - dC9.buf.data.length < ([1,2] : List Nat).length := by decide
  have h2 : dC9.poolIdx < dC9.pool.maxIdx := by decide
  have h3 : (DynamicBufWriter.Write dC9 sC9 [1,2]).err ≠ none := by
    simp [dC9, sC9, DynamicBufWriter.Write, BWriter.write, BWriter.flush, epWrite,
      Sink.write, DynamicBufWriter.grow, BufferPool.getW, BufferPool.putW]
  exact ⟨h1, h2, h3, (write_grows_even_on_error dC9 sC9 [1,2] h1 h2 h3).1, (write_grows_even_on_error dC9 sC9 [1,2] h1 h2 h3).2.1⟩

/-- C6: if the inner buffer is non-empty, Read is served from memory: no source event is consumed, the only trace growth is the deadline block, and the slot and migration counter never change; otherwise, when the fill is not deadline-expired, the slot moves per the spec sizing rule on total = n + Buffered() against the capacity, clamped at the ladder boundaries. -/
theorem read_sizing_policy (d : DynamicBufReader) (s : Source) (plen : Nat) :
    (d.buf.data.length ≠ 0 →
      (DynamicBufReader.Read d s plen).d.poolIdx = d.poolIdx ∧
      (DynamicBufReader.Read d s plen).d.migrations = d.migrations ∧
      (DynamicBufReader.Read d s plen).s.events = s.events ∧
      (DynamicBufReader.Read d s plen).s.trace = (setDeadline d.poolIdx s).trace ∧
      (DynamicBufReader.Read d s plen).data
        = d.buf.data.take (min plen d.buf.data.length)) ∧
    (d.buf.data.length = 0 →
      (BReader.read d.buf (setDeadline d.poolIdx s) plen).err ≠ some Err.deadlineExceeded →
      (DynamicBufReader.Read d s plen).d.poolIdx
        = readIdxSpec
            ((BReader.read d.buf (setDeadline d.poolIdx s) plen).data.length
              + (BReader.read d.buf (setDeadline d.poolIdx s) plen).b.data.length)
            d.buf.cap d.poolIdx d.pool.maxIdx) := by
  constructor
  · intro h
    have hf := fast_read_shape d.buf (setDeadline d.poolIdx s) plen h
    unfold DynamicBufReader.Read
    simp [h, hf.1, hf.2.1, hf.2.2.2, setDeadline_events]
  · intro h hnd
    unfold DynamicBufReader.Read
    simp [h, hnd]
    rw [read_cap_eq]
    unfold readIdxSpec
    by_cases h1 : d.buf.cap
        ≤ (BReader.read d.buf (setDeadline d.poolIdx s) plen).data.length
          + (BReader.read d.buf (setDeadline d.poolIdx s) plen).b.data.length
    · simp [h1, rgrow_poolIdx]
    · by_cases h2 : (BReader.read d.buf (setDeadline d.poolIdx s) plen).data.length
          + (BReader.read d.buf (setDeadline d.poolIdx s) plen).b.data.length
          < d.buf.cap / 2
      · simp [h1, h2, rshrink_poolIdx]
      · simp [h1, h2]

/-- C3 amended: the reader shrinks one slot and retries recursively on every deadline-expired underlying result, so a deadline-exceeded error is never propagated to the caller of Read. -/
theorem read_never_propagates_deadline (d : DynamicBufReader) (s : Source) (plen : Nat) :
    (DynamicBufReader.Read d s plen).err ≠ some Err.deadlineExceeded := by
  induction d, s, plen using DynamicBufReader.Read.induct with
  | case1 d s plen h =>
    have hf := fast_read_shape d.buf (setDeadline d.poolIdx s) plen h
    unfold DynamicBufReader.Read
    simp [h, hf.2.1]
  | case2 d s plen s0 h r hdl ih =>
    have hdl2 : (d.buf.read (setDeadline d.poolIdx s) plen).err
        = some Err.deadlineExceeded := hdl
    unfold DynamicBufReader.Read
    simp [h, hdl2]
    exact ih
  | case3 d s plen s0 h r hnd =>
    have hnd2 : ¬ (d.buf.read (setDeadline d.poolIdx s) plen).err
        = some Err.deadlineExceeded := hnd
    unfold DynamicBufReader.Read
    simp [h, hnd2]

/-- C3: counterexample.  A reader grown to slot 2 whose source then returns deadline-expired twice shrinks twice within a single Read call (idx goes 2 to 0), refuting retries-exactly-once and the claim that one Read changes idx by at most 1. -/
theorem read_deadline_multi_shrink_cex :
    let s : Source :=
      { isConn := false, deadline := none
      , events := [RdEvent.chunk [1,2,3,4,5,6,7,8,9,10,11,12,13,14,15,16],
                   RdEvent.chunk [1,2,3,4,5,6,7,8,9,10,11,12,13,14,15,16],
                   RdEvent.rerr Err.deadlineExceeded, RdEvent.rerr Err.deadlineExceeded]
      , trace := [] }
    let r1 := (NewPool 4 16).NewReaderBuffer.Read s 16
    let r2 := r1.d.Read r1.s 16
    let r3 := r2.d.Read r2.s 16
    r2.d.poolIdx = 2 ∧ r3.d.poolIdx = 0 ∧ r3.err = some Err.eof := by
  simp [DynamicBufReader.Read, BReader.read, epRead, Source.read, setDeadline,
    DynamicBufReader.grow, DynamicBufReader.shrink, BufferPool.getR, BufferPool.putR,
    NewPool, buildSizes, normMin, BufferPool.NewReaderBuffer, minWriteBufferSize]

theorem srcErrNext_read (s : Source) (e : Err) (h : srcErrNext s e) (k : Nat) :
    Source.read s k
      = ({ s with events := s.events.tail, trace := s.trace ++ [TraceEv.srcRead] },
          [], some e) := by
  rcases h with h | ⟨h1, h2⟩
  · cases hev : s.events with
    | nil => rw [hev] at h; simp at h
    | cons ev rest =>
      rw [hev] at h
      simp at h
      subst h
      unfold Source.read
      rw [hev]
      rfl
  · subst h2
    unfold Source.read
    rw [h1]
    rfl

theorem read_err_shape (b : BReader) (s : Source) (plen : Nat) (e : Err)
    (hd : b.data = []) (he : b.err = none) (hb : b.bound = Binding.real)
    (hp : plen ≠ 0) (hsrc : srcErrNext s e) :
    BReader.read b s plen
      = { b := b
        , s := { s with events := s.events.tail, trace := s.trace ++ [TraceEv.srcRead] }
        , data := [], err := some e } := by
  unfold BReader.read
  simp [hp, hd, he]
  by_cases hc : b.cap ≤ plen
  · simp [hc, epRead, hb, srcErrNext_read s e hsrc plen]
  · simp [hc, epRead, hb, srcErrNext_read s e hsrc b.cap]

/-- C4 amended: a non-deadline error from the underlying fill is returned to the caller verbatim with n = 0, and the post-fill sizing rule still runs with total = 0, so the reader shrinks one slot (a no-op at slot 0, or when capacity / 2 = 0). -/
theorem read_error_passthrough_with_sizing (d : DynamicBufReader) (s : Source) (plen : Nat) (e : Err)
    (hd : d.buf.data = []) (he : d.buf.err = none) (hb : d.buf.bound = Binding.real)
    (hp : plen ≠ 0) (hsrc : srcErrNext s e) (hne : e ≠ Err.deadlineExceeded) :
    (DynamicBufReader.Read d s plen).err = some e ∧
    (DynamicBufReader.Read d s plen).data = [] ∧
    (DynamicBufReader.Read d s plen).d.poolIdx
      = readIdxSpec 0 d.buf.cap d.poolIdx d.pool.maxIdx := by
  have hsrc0 : srcErrNext (setDeadline d.poolIdx s) e := by
    unfold srcErrNext at hsrc ⊢
    rw [setDeadline_events]
    exact hsrc
  have hr := read_err_shape d.buf (setDeadline d.poolIdx s) plen e hd he hb hp hsrc0
  have hdlen : ¬ d.buf.data.length ≠ 0 := by simp [hd]
  unfold DynamicBufReader.Read
  simp [hdlen, hr, hne, hd]
  unfold readIdxSpec
  by_cases h1 : d.buf.cap = 0
  · simp [h1, rgrow_poolIdx]
  · simp [h1]
    by_cases h2 : 0 < d.buf.cap / 2
    · simp [h2, rshrink_poolIdx]
    · simp [h2]

/-- C4: counterexample.  End of stream is returned unmodified, but not free of migration: a reader at slot 1 that hits EOF (total = 0 < capacity / 2) shrinks to slot 0 in the same Read call. -/
theorem read_eof_migrates_cex :
    let s : Source :=
      { isConn := false, deadline := none
      , events := [RdEvent.chunk [1,2,3,4,5,6,7,8]], trace := [] }
    let r1 := (NewPool 4 8).NewReaderBuffer.Read s 8
    let r2 := r1.d.Read r1.s 8
    r1.d.poolIdx = 1 ∧ r2.err = some Err.eof ∧ r2.data = [] ∧ r2.d.poolIdx = 0 := by
  simp [DynamicBufReader.Read, BReader.read, epRead, Source.read, setDeadline,
    DynamicBufReader.grow, DynamicBufReader.shrink, BufferPool.getR, BufferPool.putR,
    NewPool, buildSizes, normMin, BufferPool.NewReaderBuffer, minWriteBufferSize]

theorem source_read_trace (s : Source) (k : Nat) :
    (Source.read s k).1.trace = s.trace ++ [TraceEv.srcRead] := by
  rcases s with ⟨c, dl, ev, tr⟩
  cases ev with
  | nil => rfl
  | cons e rest => cases e <;> rfl

theorem breader_read_trace (b : BReader) (s : Source) (plen : Nat) :
    ∃ t, (BReader.read b s plen).s.trace = s.trace ++ t := by
  rcases b with ⟨cap, data, err, bound⟩
  by_cases hp : plen = 0
  · refine ⟨[], ?_⟩
    simp [BReader.read, hp]
    split <;> rfl
  · by_cases hd : data = []
    · subst hd
      cases err with
      | some e =>
        refine ⟨[], ?_⟩
        simp [BReader.read, hp]
      | none =>
        cases bound with
        | stub =>
          refine ⟨[], ?_⟩
          by_cases hcp : cap ≤ plen
          · simp [BReader.read, hp, hcp, epRead]
          · simp [BReader.read, hp, hcp, epRead]
        | real =>
          refine ⟨[TraceEv.srcRead], ?_⟩
          by_cases hcp : cap ≤ plen
          · simp [BReader.read, hp, hcp, epRead, source_read_trace]
          · simp [BReader.read, hp, hcp, epRead]
            split
            · simp [source_read_trace]
            · simp [source_read_trace]
    · refine ⟨[], ?_⟩
      simp [BReader.read, hp, hd]

theorem setDeadline_trace_exists (i : Nat) (s : Source) :
    ∃ t, (setDeadline i s).trace = s.trace ++ t := by
  unfold setDeadline
  by_cases hc : s.isConn
  · by_cases hi : i ≠ 0
    · exact ⟨[TraceEv.setDl (some 10)], by simp [hc, hi]⟩
    · exact ⟨[TraceEv.setDl none], by simp [hc, hi]⟩
  · exact ⟨[], by simp [hc]⟩

theorem setDeadline_conn (i : Nat) (s : Source) (hc : s.isConn = true) :
    (setDeadline i s).trace
        = s.trace ++ [TraceEv.setDl (if i ≠ 0 then some 10 else none)] ∧
    (setDeadline i s).deadline = (if i ≠ 0 then some 10 else none) ∧
    (setDeadline i s).events = s.events := by
  unfold setDeadline
  by_cases hi : i ≠ 0 <;> simp [hc, hi]

theorem read_trace_extends (d : DynamicBufReader) (s : Source) (plen : Nat) :
    ∃ t, (DynamicBufReader.Read d s plen).s.trace
      = (setDeadline d.poolIdx s).trace ++ t := by
  induction d, s, plen using DynamicBufReader.Read.induct with
  | case1 d s plen h =>
    have hf := fast_read_shape d.buf (setDeadline d.poolIdx s) plen h
    refine ⟨[], ?_⟩
    unfold DynamicBufReader.Read
    rw [if_pos h]
    simp [hf.1]
  | case2 d s plen s0 h r hdl ih =>
    have hdl2 : (d.buf.read (setDeadline d.poolIdx s) plen).err
        = some Err.deadlineExceeded := hdl
    have hr : r = d.buf.read (setDeadline d.poolIdx s) plen := rfl
    rw [hr] at ih
    rcases ih with ⟨t2, ht2⟩
    rcases breader_read_trace d.buf (setDeadline d.poolIdx s) plen with ⟨t1, ht1⟩
    rcases setDeadline_trace_exists
        (DynamicBufReader.shrink
          { d with buf := (d.buf.read (setDeadline d.poolIdx s) plen).b }).poolIdx
        (d.buf.read (setDeadline d.poolIdx s) plen).s with ⟨t0, ht0⟩
    unfold DynamicBufReader.Read
    rw [if_neg h, dif_pos hdl2]
    refine ⟨t1 ++ (t0 ++ t2), ?_⟩
    rw [ht2, ht0, ht1]
    simp
  | case3 d s plen s0 h r hnd =>
    have hnd2 : ¬ (d.buf.read (setDeadline d.poolIdx s) plen).err
        = some Err.deadlineExceeded := hnd
    rcases breader_read_trace d.buf (setDeadline d.poolIdx s) plen with ⟨t1, ht1⟩
    unfold DynamicBufReader.Read
    rw [if_neg h, dif_neg hnd2]
    exact ⟨t1, by simp [ht1]⟩

/-- C10: on a connection source, every Read mutates the read deadline before anything else, installing the 10 second idle deadline above slot 0 and clearing it at slot 0, as the first logged source event; on the memory-served fast path the deadline mutation is the only source effect, the deadline field ends at that value and no underlying read occurs. -/
theorem read_deadline_mutation_first (d : DynamicBufReader) (s : Source) (plen : Nat) (hc : s.isConn = true) :
    (∃ rest, (DynamicBufReader.Read d s plen).s.trace
        = s.trace ++ TraceEv.setDl (if d.poolIdx ≠ 0 then some 10 else none) :: rest) ∧
    (d.buf.data.length ≠ 0 →
      (DynamicBufReader.Read d s plen).s.trace
          = s.trace ++ [TraceEv.setDl (if d.poolIdx ≠ 0 then some 10 else none)] ∧
      (DynamicBufReader.Read d s plen).s.deadline
          = (if d.poolIdx ≠ 0 then some 10 else none) ∧
      (DynamicBufReader.Read d s plen).s.events = s.events) := by
  have hsd := setDeadline_conn d.poolIdx s hc
  constructor
  · rcases read_trace_extends d s plen with ⟨t, ht⟩
    refine ⟨t, ?_⟩
    rw [ht, hsd.1]
    simp
  · intro h
    have hf := fast_read_shape d.buf (setDeadline d.poolIdx s) plen h
    unfold DynamicBufReader.Read
    rw [if_pos h]
    simp [hf.1, hsd.1, hsd.2.1, hsd.2.2]

theorem buildSizes_eq_pos (cur : Nat) (M : Int) (h : 0 < cur ∧ (cur : Int) < M) :
    buildSizes cur M = cur :: buildSizes (cur * 2) M := by
  conv_lhs => rw [buildSizes]
  rw [dif_pos h]

theorem buildSizes_eq_neg (cur : Nat) (M : Int) (h : ¬(0 < cur ∧ (cur : Int) < M)) :
    buildSizes cur M = [cur] := by
  conv_lhs => rw [buildSizes]
  rw [dif_neg h]

theorem buildSizes_ne_nil (cur : Nat) (M : Int) : buildSizes cur M ≠ [] := by
  unfold buildSizes
  split <;> simp

theorem buildSizes_headD (cur : Nat) (M : Int) : (buildSizes cur M).headD 0 = cur := by
  unfold buildSizes
  split <;> simp

theorem buildSizes_pos (cur : Nat) (M : Int) (h : 0 < cur) :
    ∀ x ∈ buildSizes cur M, 0 < x := by
  induction cur, M using buildSizes.induct with
  | case1 cur M hg ih =>
    intro x hx
    rw [buildSizes_eq_pos cur M hg] at hx
    rcases List.mem_cons.mp hx with hx | hx
    · omega
    · exact ih (by omega) x hx
  | case2 cur M hg =>
    intro x hx
    rw [buildSizes_eq_neg cur M hg] at hx
    simp at hx
    omega

theorem buildSizes_double (cur : Nat) (M : Int) :
    ∀ i, i + 1 < (buildSizes cur M).length →
      (buildSizes cur M).getD (i+1) 0 = 2 * (buildSizes cur M).getD i 0 ∧
      ((buildSizes cur M).getD i 0 : Int) < M := by
  induction cur, M using buildSizes.induct with
  | case1 cur M hg ih =>
    intro i hi
    have hun : buildSizes cur M = cur :: buildSizes (cur * 2) M :=
      buildSizes_eq_pos cur M hg
    rw [hun] at hi
    simp at hi
    cases i with
    | zero =>
      rw [hun]
      constructor
      · show (buildSizes (cur * 2) M).getD 0 0 = 2 * cur
        have hh := buildSizes_headD (cur * 2) M
        cases hb : buildSizes (cur * 2) M with
        | nil => exact absurd hb (buildSizes_ne_nil _ _)
        | cons a l =>
          rw [hb] at hh
          simp at hh
          simp [hh]
          omega
      · simp
        exact hg.2
    | succ j =>
      rw [hun]
      have := ih j (by omega)
      simpa using this
  | case2 cur M hg =>
    intro i hi
    have hun : buildSizes cur M = [cur] := buildSizes_eq_neg cur M hg
    rw [hun] at hi
    simp at hi

theorem buildSizes_pow (cur : Nat) (M : Int) :
    ∀ x ∈ buildSizes cur M, ∃ k, x = 2 ^ k * cur := by
  induction cur, M using buildSizes.induct with
  | case1 cur M hg ih =>
    intro x hx
    rw [buildSizes_eq_pos cur M hg] at hx
    rcases List.mem_cons.mp hx with hx | hx
    · exact ⟨0, by omega⟩
    · rcases ih x hx with ⟨k, hk⟩
      exact ⟨k + 1, by rw [hk]; ring⟩
  | case2 cur M hg =>
    intro x hx
    rw [buildSizes_eq_neg cur M hg] at hx
    simp at hx
    exact ⟨0, by omega⟩

theorem buildSizes_last (cur : Nat) (M : Int) (h : 0 < cur) :
    M ≤ ((buildSizes cur M).getLastD 0 : Int) := by
  induction cur, M using buildSizes.induct with
  | case1 cur M hg ih =>
    rw [buildSizes_eq_pos cur M hg]
    rw [List.getLastD_cons]
    have hne := buildSizes_ne_nil (cur * 2) M
    have h2 : (buildSizes (cur * 2) M).getLastD cur
        = (buildSizes (cur * 2) M).getLastD 0 := by
      cases hb : buildSizes (cur * 2) M with
      | nil => exact absurd hb hne
      | cons a l =>
        have hsome : (a :: l).getLast?.isSome := by
          rw [List.getLast?_isSome]
          simp
        rcases Option.isSome_iff_exists.mp hsome with ⟨z, hz⟩
        simp [List.getLastD_eq_getLast?, hz]
    rw [h2]
    exact ih (by omega)
  | case2 cur M hg =>
    rw [buildSizes_eq_neg cur M hg]
    simp
    omega

/-- C7: counterexample.  NewPool 4 32 starts its ladder at 4, not at max(minSize, default) = 1024: the default applies only to non-positive minSize. -/
theorem ladder_base_cex : ¬ ((NewPool 4 32).sizes.headD 0 = max 4 minWriteBufferSize) := by
  simp [NewPool, buildSizes, normMin, minWriteBufferSize]

/-- C7 amended: the ladder starts at the normalized minimum (minSize when positive, the documented default 1024 otherwise), each following slot doubles the previous one and every slot below the last is strictly below maxSize, every slot is a power-of-two multiple of the normalized minimum, the last (largest) slot is at least maxSize, and maxIdx is the index of the last slot. -/
theorem ladder_properties (minSize maxSize : Int) :
    ((NewPool minSize maxSize).sizes.headD 0 = normMin minSize) ∧
    (∀ i, i + 1 < (NewPool minSize maxSize).sizes.length →
      (NewPool minSize maxSize).sizes.getD (i+1) 0
          = 2 * (NewPool minSize maxSize).sizes.getD i 0 ∧
      (((NewPool minSize maxSize).sizes.getD i 0 : Int) < maxSize)) ∧
    (∀ x ∈ (NewPool minSize maxSize).sizes, ∃ k, x = 2 ^ k * normMin minSize) ∧
    (maxSize ≤ (((NewPool minSize maxSize).sizes.getLastD 0 : Nat) : Int)) ∧
    (NewPool minSize maxSize).maxIdx = (NewPool minSize maxSize).sizes.length - 1 := by
  have hpos : 0 < normMin minSize := by
    unfold normMin minWriteBufferSize
    split
    · omega
    · omega
  refine ⟨?_, ?_, ?_, ?_, rfl⟩
  · exact buildSizes_headD _ _
  · exact buildSizes_double _ _
  · exact buildSizes_pow _ _
  · exact buildSizes_last _ _ hpos

theorem newPool_ok (minSize maxSize : Int) : PoolOK (NewPool minSize maxSize) := by
  constructor
  · intro l hl b hb
    simp [NewPool] at hl
    rcases hl with ⟨h1, h2⟩
    subst h2
    simp at hb
  · intro l hl b hb
    simp [NewPool] at hl
    rcases hl with ⟨h1, h2⟩
    subst h2
    simp at hb

theorem wWrite_pool_ok (d : DynamicBufWriter) (s : Sink) (p : List Nat)
    (hp : PoolOK d.pool) : PoolOK ((DynamicBufWriter.Write d s p).d.pool) := by
  unfold DynamicBufWriter.Write
  dsimp only
  split
  · exact wgrow_pool_ok _ hp
  · exact hp

theorem wFlush_pool_ok (d : DynamicBufWriter) (s : Sink)
    (hp : PoolOK d.pool) : PoolOK ((DynamicBufWriter.Flush d s).d.pool) := by
  unfold DynamicBufWriter.Flush
  dsimp only
  cases hf : (BWriter.flush d.buf s).err with
  | some e => exact hp
  | none =>
    dsimp only
    split
    · exact wgrow_pool_ok _ hp
    · split
      · exact wshrink_pool_ok _ hp
      · exact hp

theorem read_pool_ok (d : DynamicBufReader) (s : Source) (plen : Nat) :
    PoolOK d.pool → PoolOK ((DynamicBufReader.Read d s plen).d.pool) := by
  induction d, s, plen using DynamicBufReader.Read.induct with
  | case1 d s plen h =>
    intro hp
    unfold DynamicBufReader.Read
    rw [if_pos h]
    exact hp
  | case2 d s plen s0 h r hdl ih =>
    intro hp
    have hdl2 : (d.buf.read (setDeadline d.poolIdx s) plen).err
        = some Err.deadlineExceeded := hdl
    unfold DynamicBufReader.Read
    rw [if_neg h, dif_pos hdl2]
    exact ih (rshrink_pool_ok _ hp)
  | case3 d s plen s0 h r hnd =>
    intro hp
    have hnd2 : ¬ (d.buf.read (setDeadline d.poolIdx s) plen).err
        = some Err.deadlineExceeded := hnd
    unfold DynamicBufReader.Read
    rw [if_neg h, dif_neg hnd2]
    dsimp only
    split
    · exact rgrow_pool_ok _ hp
    · split
      · exact rshrink_pool_ok _ hp
      · exact hp

theorem stub_read_sentinel (b : BReader) (s : Source) (plen : Nat)
    (hb : RReset b) (hp : plen ≠ 0) :
    (BReader.read b s plen).err = some Err.failingRead ∧
      (BReader.read b s plen).s = s := by
  rcases hb with ⟨h1, h2, h3⟩
  unfold BReader.read
  by_cases hc : b.cap ≤ plen
  · simp [hp, h2, h3, h1, epRead, hc]
  · simp [hp, h2, h3, h1, epRead, hc]

theorem stub_flush_sentinel (b : BWriter) (s : Sink) (hb : b.bound = Binding.stub)
    (he : b.err = none) (hd : b.data ≠ []) :
    (BWriter.flush b s).err = some Err.failingWrite := by
  have hlen : ¬ b.data.length = 0 := by
    intro hx
    exact hd (List.eq_nil_of_length_eq_zero hx)
  unfold BWriter.flush
  simp [he, hlen, hb, epWrite]

theorem stub_write_oversize (b : BWriter) (s : Sink) (p : List Nat)
    (hb : WReset b) (hcap : b.cap < p.length) :
    (BWriter.write b s p).err = some Err.failingWrite ∧
      (BWriter.write b s p).n = 0 := by
  rcases hb with ⟨h1, h2, h3⟩
  simp [BWriter.write, h1, h2, h3, epWrite, hcap]

theorem stub_write_fits (b : BWriter) (s : Sink) (p : List Nat)
    (hb : b.bound = Binding.stub) (he : b.err = none)
    (hle : p.length ≤ b.cap - b.data.length) :
    (BWriter.write b s p).err = none ∧ (BWriter.write b s p).n = p.length := by
  have hno : ¬(b.cap - b.data.length < p.length ∧ b.err = none) := by
    intro hx
    have := hx.1
    omega
  unfold BWriter.write
  rw [dif_neg hno]
  simp [he]

/-- C8 amended: pool free lists only ever hold stub-bound, cursor-reset buffers (fresh pools satisfy this, and grow, shrink, Write, Flush and Read all preserve it), checked-out buffers are rebound with cursor and sticky error cleared so the previous endpoint is never visible, a read on a stub-bound reader returns the read sentinel, a flush of buffered bytes or a buffer-exceeding write on a stub-bound writer returns the write sentinel, while a write that fits in the free space is absorbed without any error. -/
theorem stub_safety :
    (∀ minSize maxSize : Int, PoolOK (NewPool minSize maxSize)) ∧
    (∀ d : DynamicBufWriter, PoolOK d.pool → PoolOK (DynamicBufWriter.grow d).pool) ∧
    (∀ d : DynamicBufWriter, PoolOK d.pool → PoolOK (DynamicBufWriter.shrink d).pool) ∧
    (∀ d : DynamicBufReader, PoolOK d.pool → PoolOK (DynamicBufReader.grow d).pool) ∧
    (∀ d : DynamicBufReader, PoolOK d.pool → PoolOK (DynamicBufReader.shrink d).pool) ∧
    (∀ (d : DynamicBufWriter) (s : Sink) (p : List Nat), PoolOK d.pool →
      PoolOK ((DynamicBufWriter.Write d s p).d.pool)) ∧
    (∀ (d : DynamicBufWriter) (s : Sink), PoolOK d.pool →
      PoolOK ((DynamicBufWriter.Flush d s).d.pool)) ∧
    (∀ (d : DynamicBufReader) (s : Source) (plen : Nat), PoolOK d.pool →
      PoolOK ((DynamicBufReader.Read d s plen).d.pool)) ∧
    (∀ p : BufferPool, (p.NewWriteBuffer).buf.bound = Binding.real ∧
      (p.NewWriteBuffer).buf.data = [] ∧ (p.NewWriteBuffer).buf.err = none) ∧
    (∀ p : BufferPool, (p.NewReaderBuffer).buf.bound = Binding.real ∧
      (p.NewReaderBuffer).buf.data = [] ∧ (p.NewReaderBuffer).buf.err = none) ∧
    (∀ (b : BReader) (s : Source) (plen : Nat), RReset b → plen ≠ 0 →
      (BReader.read b s plen).err = some Err.failingRead ∧
        (BReader.read b s plen).s = s) ∧
    (∀ (b : BWriter) (s : Sink), b.bound = Binding.stub → b.err = none → b.data ≠ [] →
      (BWriter.flush b s).err = some Err.failingWrite) ∧
    (∀ (b : BWriter) (s : Sink) (p : List Nat), WReset b → b.cap < p.length →
      (BWriter.write b s p).err = some Err.failingWrite ∧
        (BWriter.write b s p).n = 0) ∧
    (∀ (b : BWriter) (s : Sink) (p : List Nat), b.bound = Binding.stub → b.err = none →
      p.length ≤ b.cap - b.data.length →
      (BWriter.write b s p).err = none ∧ (BWriter.write b s p).n = p.length) :=
  ⟨newPool_ok, wgrow_pool_ok, wshrink_pool_ok, rgrow_pool_ok, rshrink_pool_ok,
   wWrite_pool_ok, wFlush_pool_ok, read_pool_ok,
   fun _ => ⟨rfl, rfl, rfl⟩, fun _ => ⟨rfl, rfl, rfl⟩,
   stub_read_sentinel, stub_flush_sentinel, stub_write_oversize, stub_write_fits⟩

/-- C8: counterexample.  The cap-4 buffered writer that an oversize write returned to the free list is stub-bound and reset, yet a one-byte write on it is absorbed into its buffer and returns (1, nil): no sentinel error, refuting the claim that any write on a stub-bound buffer returns the sentinel. -/
theorem stub_buffered_write_unreported_cex :
    let r1 := (NewPool 4 8).NewWriteBuffer.Write memSink [1,2,3,4,5]
    let b := (r1.d.pool.writerFree.getD 0 []).headD
        { cap := 0, data := [], err := none, bound := Binding.real }
    b.bound = Binding.stub ∧ b.data = [] ∧
    (BWriter.write b memSink [7]).err = none ∧ (BWriter.write b memSink [7]).n = 1 := by
  simp [DynamicBufWriter.Write, BWriter.write, BWriter.flush, epWrite, Sink.write,
    NewPool, buildSizes, normMin, BufferPool.NewWriteBuffer, BufferPool.getW,
    BufferPool.putW, DynamicBufWriter.grow, memSink, minWriteBufferSize]

def bC8 : BReader := { cap := 4, data := [], err := none, bound := Binding.stub }
def srcC8 : Source := { isConn := false, deadline := none, events := [], trace := [] }

theorem stub_safety_witness :
    RReset bC8 ∧ ((2:Nat) ≠ 0) ∧
    (BReader.read bC8 srcC8 2).err = some Err.failingRead ∧
    PoolOK (NewPool 4 8) := by
  have hb : RReset bC8 := ⟨rfl, rfl, rfl⟩
  have hp : (2:Nat) ≠ 0 := by decide
  exact ⟨hb, hp, (stub_safety.2.2.2.2.2.2.2.2.2.2.1 bC8 srcC8 2 hb hp).1,
    stub_safety.1 4 8⟩

def dC5 : DynamicBufWriter :=
  { buf := { cap := 4, data := [9,9,9,9], err := none, bound := Binding.real }
  , pool := { sizes := [4,8], writerFree := [[],[]], readerFree := [[],[]], maxIdx := 1 }
  , poolIdx := 0, migrations := 0 }

theorem flush_migration_policy_witness :
    ((DynamicBufWriter.Flush dC5 memSink).err = none) ∧
    (DynamicBufWriter.Flush dC5 memSink).d.poolIdx
      = flushIdxSpec dC5.buf.data.length dC5.buf.cap dC5.poolIdx dC5.pool.maxIdx := by
  have he : (DynamicBufWriter.Flush dC5 memSink).err = none := by decide
  exact ⟨he, (flush_migration_policy dC5 memSink).2.1 he⟩

def dC6 : DynamicBufReader :=
  { buf := { cap := 4, data := [], err := none, bound := Binding.real }
  , pool := { sizes := [4,8], writerFree := [[],[]], readerFree := [[],[]], maxIdx := 1 }
  , poolIdx := 0, migrations := 0 }

def srcC6 : Source :=
  { isConn := false, deadline := none, events := [RdEvent.chunk [1,2,3,4]], trace := [] }

theorem read_sizing_policy_witness :
    (dC6.buf.data.length = 0) ∧
    ((BReader.read dC6.buf (setDeadline dC6.poolIdx srcC6) 2).err
      ≠ some Err.deadlineExceeded) ∧
    (DynamicBufReader.Read dC6 srcC6 2).d.poolIdx
      = readIdxSpec
          ((BReader.read dC6.buf (setDeadline dC6.poolIdx srcC6) 2).data.length
            + (BReader.read dC6.buf (setDeadline dC6.poolIdx srcC6) 2).b.data.length)
          dC6.buf.cap dC6.poolIdx dC6.pool.maxIdx := by
  have h1 : dC6.buf.data.length = 0 := by decide
  have h2 : (BReader.read dC6.buf (setDeadline dC6.poolIdx srcC6) 2).err
      ≠ some Err.deadlineExceeded := by decide
  exact ⟨h1, h2, (read_sizing_policy dC6 srcC6 2).2 h1 h2⟩

def dC4 : DynamicBufReader :=
  { buf := { cap := 4, data := [], err := none, bound := Binding.real }
  , pool := { sizes := [4,8], writerFree := [[],[]], readerFree := [[],[]], maxIdx := 1 }
  , poolIdx := 1, migrations := 0 }

def srcC4 : Source :=
  { isConn := false, deadline := none, events := [RdEvent.rerr (Err.custom 5)], trace := [] }

theorem read_error_passthrough_with_sizing_witness :
    (dC4.buf.data = []) ∧ (dC4.buf.err = none) ∧ (dC4.buf.bound = Binding.real) ∧
    ((2:Nat) ≠ 0) ∧ srcErrNext srcC4 (Err.custom 5) ∧
    (Err.custom 5 ≠ Err.deadlineExceeded) ∧
    (DynamicBufReader.Read dC4 srcC4 2).err = some (Err.custom 5) ∧
    (DynamicBufReader.Read dC4 srcC4 2).d.poolIdx
      = readIdxSpec 0 dC4.buf.cap dC4.poolIdx dC4.pool.maxIdx := by
  have hsrc : srcErrNext srcC4 (Err.custom 5) := Or.inl rfl
  have hth := read_error_passthrough_with_sizing dC4 srcC4 2 (Err.custom 5) rfl rfl rfl (by decide) hsrc (by decide)
  exact ⟨rfl, rfl, rfl, by decide, hsrc, by decide, hth.1, hth.2.2⟩

def dC10 : DynamicBufReader :=
  { buf := { cap := 4, data := [7,8], err := none, bound := Binding.real }
  , pool := { sizes := [4,8], writerFree := [[],[]], readerFree := [[],[]], maxIdx := 1 }
  , poolIdx := 1, migrations := 0 }

def srcC10 : Source := { isConn := true, deadline := none, events := [], trace := [] }

theorem read_deadline_mutation_first_witness :
    (srcC10.isConn = true) ∧ (dC10.buf.data.length ≠ 0) ∧
    (∃ rest, (DynamicBufReader.Read dC10 srcC10 1).s.trace
        = srcC10.trace
            ++ TraceEv.setDl (if dC10.poolIdx ≠ 0 then some 10 else none) :: rest) ∧
    ((DynamicBufReader.Read dC10 srcC10 1).s.deadline
        = (if dC10.poolIdx ≠ 0 then some 10 else none)) := by
  have hc : srcC10.isConn = true := rfl
  have hd : dC10.buf.data.length ≠ 0 := by decide
  exact ⟨hc, hd, (read_deadline_mutation_first dC10 srcC10 1 hc).1, ((read_deadline_mutation_first dC10 srcC10 1 hc).2 hd).2.1⟩

theorem ladder_properties_witness :
    (0 + 1 < (NewPool 4 32).sizes.length) ∧
    ((NewPool 4 32).sizes.getD (0+1) 0 = 2 * (NewPool 4 32).sizes.getD 0 0 ∧
      (((NewPool 4 32).sizes.getD 0 0 : Int) < 32)) ∧
    ((4:Nat) ∈ (NewPool 4 32).sizes) ∧ (∃ k, (4:Nat) = 2 ^ k * normMin 4) := by
  have hlen : 0 + 1 < (NewPool 4 32).sizes.length := by
    simp [NewPool, buildSizes, normMin, minWriteBufferSize]
  have hmem : (4:Nat) ∈ (NewPool 4 32).sizes := by
    simp [NewPool, buildSizes, normMin, minWriteBufferSize]
  exact ⟨hlen, (ladder_properties 4 32).2.1 0 hlen, hmem, (ladder_properties 4 32).2.2.1 4 hmem⟩

end Dynbufio
